import Mathlib

/-!
# Verification of the sentiment-analysis dashboard

Shallow embedding of `src/sentiment-dashboard/app.py` (a Streamlit app that
sends rows of text to a hosted emotion classifier, normalizes the returned
label, accumulates a results table, and offers it as a CSV download).

Machine floats in the Python code carry JSON-decoded decimal scores; they are
modelled as exact rationals (`ℚ`), since only ordering, equality with zero,
and printing/parsing round-trips matter to the verified claims.

The network is modelled as an oracle value (`ApiOutcome`) describing what
`requests.post` produced for a given call: either a raised
`requests.exceptions.RequestException`, or an HTTP response with a status code
and a parsed JSON body (`none` standing for a body that is not valid JSON,
whose `response.json()` raises a `RequestException` subclass and is therefore
caught by the function's `except` clause).
-/

set_option maxHeartbeats 1000000

/-- Parsed JSON values, as Python's `response.json()` produces them
(numbers as exact rationals). -/
inductive Json where
  | null : Json
  | bool (b : Bool) : Json
  | num (q : ℚ) : Json
  | str (s : String) : Json
  | arr (elems : List Json) : Json
  | obj (fields : List (String × Json)) : Json

/-- Python truthiness of a JSON-decoded value: `None`, `False`, `0`, `""`,
`[]` and `{}` are falsy, everything else truthy. -/
def pyTruthy : Json → Bool
  | Json.null => false
  | Json.bool b => b
  | Json.num q => decide (q ≠ 0)
  | Json.str s => decide (s ≠ "")
  | Json.arr l => !l.isEmpty
  | Json.obj l => !l.isEmpty

/-- Whether a JSON-decoded Python value is hashable (lists and dicts are not);
`label_map.get(emotion, 'Neutral')` raises `TypeError` on unhashable keys. -/
def pyHashable : Json → Bool
  | Json.arr _ => false
  | Json.obj _ => false
  | _ => true

/-- The literal `label_map` dict built inside `query_sentiment`
(app.py lines 74-75). -/
def label_map : List (String × String) :=
  [("sadness", "Negative"), ("joy", "Positive"), ("love", "Positive"),
   ("anger", "Negative"), ("fear", "Negative"), ("surprise", "Positive")]

/-- `label_map.get(emotion, 'Neutral')` for a hashable `emotion`: a string key
is looked up in the dict, any other (hashable) key is absent, so the default
`'Neutral'` is returned (app.py line 76). -/
def label_map_get : Json → String
  | Json.str s => (label_map.lookup s).getD "Neutral"
  | _ => "Neutral"

/-- What the network produced for one `requests.post` call. -/
inductive ApiOutcome where
  | transportFailure : ApiOutcome
  | response (status : Nat) (body : Option Json) : ApiOutcome

/-- Observable result of a `query_sentiment` call. -/
inductive PyResult where
  /-- `return simple_label, top_prediction['score'], emotion` -/
  | ok (label : String) (score : Json) (emotion : Json) : PyResult
  /-- `return None, None, None` -/
  | failTriple : PyResult
  /-- an exception escapes the function (nothing is returned) -/
  | exn (msg : String) : PyResult

/-- Embedding of `query_sentiment` (app.py lines 51-84).

Control flow of the source: empty `api_key` returns the `None` triple before
any network access; a raised `RequestException` (transport failure, and also a
non-JSON body, whose decode error subclasses `RequestException`) is caught and
returns the `None` triple; status 401 and 403 each return the `None` triple;
`raise_for_status()` raises (caught) on any other 4xx/5xx status; then
`result[0][0]` is taken from the parsed body if it `isinstance(result, list)`,
else the unexpected-response branch returns the `None` triple.  `result[0][0]`
on an empty list raises an uncaught `IndexError`; subscripting or key lookup
on values of the wrong shape raises uncaught `TypeError`/`KeyError`. -/
def query_sentiment (api_key : String) (o : ApiOutcome) : PyResult :=
  if api_key = "" then PyResult.failTriple
  else
    match o with
    | ApiOutcome.transportFailure => PyResult.failTriple
    | ApiOutcome.response status body =>
      if status = 401 then PyResult.failTriple
      else if status = 403 then PyResult.failTriple
      else if 400 ≤ status ∧ status < 600 then PyResult.failTriple
      else
        match body with
        | none => PyResult.failTriple
        | some (Json.arr groups) =>
          match groups with
          | [] => PyResult.exn "IndexError"
          | g0 :: _ =>
            match g0 with
            | Json.arr [] => PyResult.exn "IndexError"
            | Json.arr (p0 :: _) =>
              match p0 with
              | Json.obj fields =>
                match fields.lookup "label" with
                | none => PyResult.exn "KeyError"
                | some emotion =>
                  if pyHashable emotion then
                    match fields.lookup "score" with
                    | none => PyResult.exn "KeyError"
                    | some score =>
                      PyResult.ok (label_map_get emotion) score emotion
                  else PyResult.exn "TypeError"
              | _ => PyResult.exn "TypeError"
            | Json.str s =>
              if s = "" then PyResult.exn "IndexError"
              else PyResult.exn "TypeError"
            | _ => PyResult.exn "TypeError"
        | some _ => PyResult.failTriple

/-- One row of `results` in the batch-analysis loop (app.py lines 191-206):
a dict with keys `text`, `sentiment`, `confidence`, `detailed_emotion`,
`text_length`. -/
structure ResultRow where
  text : String
  sentiment : String
  confidence : Json
  detailed_emotion : Json
  text_length : Nat

/-- The entry appended when a row's classification yields no usable label and
score (app.py lines 200-206). -/
def errorRowFor (t : String) : ResultRow :=
  ⟨t, "Error", Json.num 0, Json.str "error", t.length⟩

/-- One iteration of the batch loop (app.py lines 189-206): call
`query_sentiment`, then `if label and score:` append the success dict, else
append the error dict.  An exception escaping `query_sentiment` aborts the
whole Streamlit script run (`Except.error`). -/
def processRow (api_key : String) (text : String) (o : ApiOutcome) :
    Except String ResultRow :=
  match query_sentiment api_key o with
  | PyResult.exn m => Except.error m
  | PyResult.failTriple => Except.ok (errorRowFor text)
  | PyResult.ok label score emotion =>
    if label ≠ "" ∧ pyTruthy score = true then
      Except.ok ⟨text, label, score, emotion, text.length⟩
    else Except.ok (errorRowFor text)

/-- The batch loop over the detected text column (app.py lines 184-206).
Each row is paired with the network's behaviour for its call. -/
def runBatch (api_key : String) (rows : List (String × ApiOutcome)) :
    Except String (List ResultRow) :=
  match rows with
  | [] => Except.ok []
  | (t, o) :: rest =>
    (processRow api_key t o).bind (fun r =>
      (runBatch api_key rest).map (fun rs => r :: rs))

/-- Observable outcome of pressing the `Analyze Entire File` button
(app.py lines 175-208). -/
inductive BatchClickResult where
  /-- `st.error("... enter your Hugging Face API token first.")`; the loop
  never runs -/
  | missingKeyMessage : BatchClickResult
  /-- an uncaught exception aborts the script run mid-batch -/
  | pythonCrash (msg : String) : BatchClickResult
  /-- `results_df` is built from the accumulated rows -/
  | results (rows : List ResultRow) : BatchClickResult

/-- Whether a results table was produced at all. -/
def BatchClickResult.isResults : BatchClickResult → Bool
  | BatchClickResult.results _ => true
  | _ => false

/-- The `Analyze Entire File` click handler: the `if not api_key` guard
(app.py lines 176-177), then the batch loop. -/
def analyzeBatchClick (api_key : String) (rows : List (String × ApiOutcome)) :
    BatchClickResult :=
  if api_key = "" then BatchClickResult.missingKeyMessage
  else
    match runBatch api_key rows with
    | Except.error m => BatchClickResult.pythonCrash m
    | Except.ok rs => BatchClickResult.results rs

/-- The literal `possible_names` list (app.py line 161). -/
def possible_names : List String :=
  ["text", "Text", "TEXT", "comment", "Comment", "review", "Review",
   "content", "Content", "message", "Message"]

/-- Python's `str.lower()` on a column name (ASCII case folding, applied
character by character). -/
def pyLower (s : String) : String := String.mk (s.data.map Char.toLower)

/-- `col.lower() in [name.lower() for name in possible_names]`
(app.py line 166). -/
def matchesTextName (c : String) : Bool :=
  (possible_names.map pyLower).contains (pyLower c)

/-- The column-detection loop with `break` (app.py lines 165-168): the first
column whose lowered name occurs in the lowered `possible_names`. -/
def findTextColumn (cols : List String) : Option String :=
  cols.find? matchesTextName

/-- Observable outcome of the batch-analysis tab: either the
no-suitable-text-column error (app.py line 171, shown before any analysis can
start), or the chosen column together with the click outcome. -/
inductive Tab2Result where
  | missingColumnMessage : Tab2Result
  | clicked (column : String) (r : BatchClickResult) : Tab2Result

/-- The batch-analysis tab on an uploaded table (app.py lines 154-208).
`df` is the uploaded dataframe as ordered `(column name, cells)` pairs;
`oracle` gives the network's behaviour for each text sent. -/
def tab2Run (api_key : String) (df : List (String × List String))
    (oracle : String → ApiOutcome) : Tab2Result :=
  match findTextColumn (df.map Prod.fst) with
  | none => Tab2Result.missingColumnMessage
  | some c =>
    Tab2Result.clicked c
      (analyzeBatchClick api_key
        (((df.lookup c).getD []).map (fun t => (t, oracle t))))

/-!
## The CSV download (app.py lines 250-257)

`results_df.to_csv(index=False)` writes a header line followed by one line per
row, fields separated by commas, a field being quoted (with embedded quotes
doubled) exactly when it contains a comma, a double quote, or a line break
(the `csv` module's minimal quoting).  `readCSV` is a standard parser for that
format reading the table back with the result-table schema.  Confidence
values, exact rationals in this embedding, are rendered injectively as
`num/den` (integers plainly), standing in for Python's round-tripping float
`repr`.
-/

/-- The decimal digit character for `d < 10`. -/
def digitToChar (d : Nat) : Char := Char.ofNat (48 + d)

/-- Numeric value of a decimal digit character. -/
def charToDigit (c : Char) : Nat := c.toNat - 48

/-- Decimal rendering of a natural number. -/
def natRepr (n : Nat) : List Char :=
  if n = 0 then ['0'] else ((Nat.digits 10 n).map digitToChar).reverse

/-- Parse a nonempty all-digit string as a natural number. -/
def natParse (l : List Char) : Option Nat :=
  if !l.isEmpty && l.all Char.isDigit then
    some (Nat.ofDigits 10 ((l.map charToDigit).reverse))
  else none

/-- Decimal rendering of an integer. -/
def intRepr (n : Int) : List Char :=
  if n < 0 then '-' :: natRepr n.natAbs else natRepr n.toNat

/-- Parse an optionally `-`-signed decimal integer. -/
def intParse (l : List Char) : Option Int :=
  if l.head? = some '-' then (natParse l.tail).map (fun m : Nat => -(m : Int))
  else (natParse l).map (fun m : Nat => (m : Int))

/-- Injective rendering of a rational: its integer value when the denominator
is 1, else `num/den` in lowest terms. -/
def ratRepr (q : ℚ) : List Char :=
  if q.den = 1 then intRepr q.num else intRepr q.num ++ '/' :: natRepr q.den

/-- Parse the output of `ratRepr` back into a rational. -/
def ratParse (l : List Char) : Option ℚ :=
  match l.dropWhile (fun c => c != '/') with
  | [] => (intParse l).map (fun n : Int => (n : ℚ))
  | _ :: d =>
    match intParse (l.takeWhile (fun c => c != '/')), natParse d with
    | some n, some m => if m = 0 then none else some ((n : ℚ) / (m : ℚ))
    | _, _ => none

/-- A field needs quoting when it contains the delimiter, the quote character
or a line break. -/
def needsQuote (s : List Char) : Bool :=
  s.any (fun c => c = ',' || c = '"' || c = '\n' || c = '\r')

/-- Double every embedded quote character. -/
def escapeField : List Char → List Char
  | [] => []
  | c :: rest =>
    if c = '"' then '"' :: '"' :: escapeField rest else c :: escapeField rest

/-- Minimal-quoting encoding of one field. -/
def encodeField (s : List Char) : List Char :=
  if needsQuote s then '"' :: (escapeField s ++ ['"']) else s

/-- One record: fields joined by commas. -/
def encodeLine : List (List Char) → List Char
  | [] => []
  | [c] => encodeField c
  | c :: cs => encodeField c ++ ',' :: encodeLine cs

/-- Records, each terminated by a newline. -/
def encodeRecords : List (List (List Char)) → List Char
  | [] => []
  | r :: rs => encodeLine r ++ '\n' :: encodeRecords rs

/-- The header written by `to_csv` for the results table: the dict keys of
the accumulated rows, in insertion order. -/
def csvHeader : List (List Char) :=
  ["text".data, "sentiment".data, "confidence".data,
   "detailed_emotion".data, "text_length".data]

/-- How a stored cell value appears in the CSV text.  The cells of a
well-formed results table are strings and numbers; the remaining JSON shapes
cannot reach a results row's `confidence`/`detailed_emotion` (see the
round-trip theorem's hypotheses) and are rendered by placeholders. -/
def jsonCell : Json → List Char
  | Json.str s => s.data
  | Json.num q => ratRepr q
  | Json.bool b => if b then "True".data else "False".data
  | Json.null => []
  | Json.arr _ => []
  | Json.obj _ => []

/-- The five cells `to_csv` writes for one results row. -/
def rowCells (r : ResultRow) : List (List Char) :=
  [r.text.data, r.sentiment.data, jsonCell r.confidence,
   jsonCell r.detailed_emotion, natRepr r.text_length]

/-- `results_df.to_csv(index=False)`: header then one line per row. -/
def writeCSV (rs : List ResultRow) : String :=
  String.mk (encodeRecords (csvHeader :: rs.map rowCells))

/-- Consume an unquoted field: everything up to the next comma or newline. -/
def parseUnquoted : List Char → List Char × List Char
  | [] => ([], [])
  | c :: rest =>
    if c = ',' ∨ c = '\n' then ([], c :: rest)
    else
      let p := parseUnquoted rest
      (c :: p.1, p.2)

/-- Consume a quoted field after its opening quote; a doubled quote is an
escaped quote character, a lone quote closes the field. -/
def parseQuotedBody : List Char → Option (List Char × List Char)
  | [] => none
  | c :: rest =>
    if c = '"' then
      if rest.head? = some '"' then
        (parseQuotedBody rest.tail).map (fun p => ('"' :: p.1, p.2))
      else some ([], rest)
    else (parseQuotedBody rest).map (fun p => (c :: p.1, p.2))
termination_by l => l.length
decreasing_by
  · simp only [List.length_cons, List.length_tail]
    omega
  · simp only [List.length_cons]
    omega

/-- Consume one field, quoted or not. -/
def parseField (l : List Char) : Option (List Char × List Char) :=
  if l.head? = some '"' then parseQuotedBody l.tail
  else some (parseUnquoted l)

/-- Consume one record: comma-separated fields up to a newline (consumed) or
the end of input.  `fuel` bounds the number of fields. -/
def parseFields : Nat → List Char → Option (List (List Char) × List Char)
  | 0, _ => none
  | fuel + 1, l =>
    (parseField l).bind (fun p =>
      if p.2.head? = some ',' then
        (parseFields fuel p.2.tail).map (fun q => (p.1 :: q.1, q.2))
      else if p.2.head? = some '\n' then some ([p.1], p.2.tail)
      else if p.2.isEmpty then some ([p.1], [])
      else none)

/-- Consume newline-terminated records to the end of input.  `fuel` bounds
the number of records. -/
def parseRecords : Nat → List Char → Option (List (List (List Char)))
  | 0, _ => none
  | fuel + 1, l =>
    if l.isEmpty then some []
    else
      (parseFields (l.length + 1) l).bind (fun p =>
        (parseRecords fuel p.2).map (fun rs => p.1 :: rs))

/-- Rebuild one results row from its five parsed cells, reading the
confidence back as a number and the text length back as a natural. -/
def parseRow (cells : List (List Char)) : Option ResultRow :=
  match cells with
  | [t, s, c, e, n] =>
    (ratParse c).bind (fun q =>
      (natParse n).map (fun len =>
        ⟨String.mk t, String.mk s, Json.num q, Json.str (String.mk e), len⟩))
  | _ => none

/-- Parse a CSV text produced for a results table: records, a header check,
then one results row per remaining record. -/
def readCSV (s : String) : Option (List ResultRow) :=
  (parseRecords (s.data.length + 1) s.data).bind (fun recs =>
    if recs.head? = some csvHeader then recs.tail.mapM parseRow else none)

/-! ## Round-trip lemmas for the numeric renderings -/

theorem charToDigit_digitToChar {d : Nat} (hd : d < 10) :
    charToDigit (digitToChar d) = d := by
  interval_cases d <;> decide

theorem isDigit_digitToChar {d : Nat} (hd : d < 10) :
    (digitToChar d).isDigit = true := by
  interval_cases d <;> decide

theorem natRepr_all_digit (n : Nat) : ∀ c ∈ natRepr n, c.isDigit = true := by
  intro c hc
  unfold natRepr at hc
  by_cases h : n = 0
  · rw [if_pos h] at hc
    simp only [List.mem_singleton] at hc
    subst hc; decide
  · rw [if_neg h] at hc
    rw [List.mem_reverse, List.mem_map] at hc
    obtain ⟨d, hd, rfl⟩ := hc
    exact isDigit_digitToChar (Nat.digits_lt_base (by norm_num) hd)

theorem natRepr_ne_nil (n : Nat) : natRepr n ≠ [] := by
  unfold natRepr
  by_cases h : n = 0
  · simp [h]
  · rw [if_neg h]
    simp [Nat.digits_ne_nil_iff_ne_zero.mpr h]

theorem natParse_natRepr (n : Nat) : natParse (natRepr n) = some n := by
  by_cases h : n = 0
  · subst h; decide
  · have hne := natRepr_ne_nil n
    have hdig := natRepr_all_digit n
    unfold natParse
    rw [if_pos]
    · congr 1
      unfold natRepr
      rw [if_neg h]
      rw [List.map_reverse, List.reverse_reverse, List.map_map]
      have hmap : (Nat.digits 10 n).map (charToDigit ∘ digitToChar)
          = Nat.digits 10 n := by
        have hpt : ∀ d ∈ Nat.digits 10 n, (charToDigit ∘ digitToChar) d = id d :=
          fun d hd => charToDigit_digitToChar (Nat.digits_lt_base (by norm_num) hd)
        rw [List.map_congr_left hpt, List.map_id]
      rw [hmap, Nat.ofDigits_digits]
    · simp only [Bool.and_eq_true, Bool.not_eq_true', List.all_eq_true]
      refine ⟨?_, hdig⟩
      cases hl : natRepr n with
      | nil => exact absurd hl hne
      | cons a t => rfl

theorem intParse_intRepr (n : Int) : intParse (intRepr n) = some n := by
  unfold intRepr
  by_cases h : n < 0
  · rw [if_pos h]
    unfold intParse
    rw [List.head?_cons, if_pos rfl, List.tail_cons, natParse_natRepr]
    simp only [Option.map_some']
    congr 1
    omega
  · rw [if_neg h]
    obtain ⟨c, t, hct⟩ : ∃ c t, natRepr n.toNat = c :: t := by
      cases hl : natRepr n.toNat with
      | nil => exact absurd hl (natRepr_ne_nil _)
      | cons a t => exact ⟨a, t, rfl⟩
    unfold intParse
    rw [if_neg]
    · rw [natParse_natRepr]
      simp only [Option.map_some']
      congr 1
      omega
    · rw [hct, List.head?_cons]
      intro hc
      have hceq : c = '-' := Option.some.inj hc
      have hd := natRepr_all_digit n.toNat c (hct ▸ List.mem_cons_self c t)
      rw [hceq] at hd
      exact absurd hd (by decide)

theorem intRepr_digit_or_sign (n : Int) :
    ∀ c ∈ intRepr n, c.isDigit = true ∨ c = '-' := by
  intro c hc
  unfold intRepr at hc
  by_cases h : n < 0
  · rw [if_pos h] at hc
    rcases List.mem_cons.mp hc with h1 | h1
    · exact Or.inr h1
    · exact Or.inl (natRepr_all_digit _ c h1)
  · rw [if_neg h] at hc
    exact Or.inl (natRepr_all_digit _ c hc)

theorem takeWhile_dropWhile_append {p : Char → Bool} (xs ys : List Char)
    (hxs : ∀ x ∈ xs, p x = true)
    (hys : ∀ y, ys.head? = some y → p y = false) :
    (xs ++ ys).takeWhile p = xs ∧ (xs ++ ys).dropWhile p = ys := by
  induction xs with
  | nil =>
    simp only [List.nil_append]
    cases ys with
    | nil => exact ⟨rfl, rfl⟩
    | cons y t =>
      have hy := hys y rfl
      exact ⟨by simp [List.takeWhile, hy], by simp [List.dropWhile, hy]⟩
  | cons x xs ih =>
    have hx := hxs x (List.mem_cons_self x xs)
    have ihr := ih (fun a ha => hxs a (List.mem_cons_of_mem x ha))
    simp only [List.cons_append]
    exact ⟨by simp [List.takeWhile, hx, ihr.1],
           by simp [List.dropWhile, hx, ihr.2]⟩

theorem intRepr_no_slash (n : Int) :
    ∀ c ∈ intRepr n, (c != '/') = true := by
  intro c hc
  rcases intRepr_digit_or_sign n c hc with h | h
  · rw [bne_iff_ne]
    intro he
    rw [he] at h
    exact absurd h (by decide)
  · rw [h]; decide

theorem ratParse_ratRepr (q : ℚ) : ratParse (ratRepr q) = some q := by
  have hchars := intRepr_no_slash q.num
  unfold ratRepr
  by_cases hden : q.den = 1
  · rw [if_pos hden]
    have hsplit := takeWhile_dropWhile_append (intRepr q.num) [] hchars
      (fun y hy => by simp at hy)
    rw [List.append_nil] at hsplit
    unfold ratParse
    rw [hsplit.2, intParse_intRepr]
    simp only [Option.map_some']
    have hq := Rat.num_div_den q
    rw [hden] at hq
    simpa using hq
  · rw [if_neg hden]
    have hsplit := takeWhile_dropWhile_append (intRepr q.num)
      ('/' :: natRepr q.den) hchars
      (fun y hy => by
        simp only [List.head?_cons, Option.some.injEq] at hy
        rw [← hy]; decide)
    unfold ratParse
    rw [hsplit.2]
    simp only [hsplit.1, intParse_intRepr, natParse_natRepr]
    rw [if_neg q.den_nz]
    rw [Rat.num_div_den]

/-! ## Round-trip lemmas for the CSV encoding -/

theorem parseUnquoted_append {f rest : List Char}
    (hf : ∀ c ∈ f, ¬(c = ',' ∨ c = '\n'))
    (hrest : ∀ c, rest.head? = some c → (c = ',' ∨ c = '\n')) :
    parseUnquoted (f ++ rest) = (f, rest) := by
  induction f with
  | nil =>
    simp only [List.nil_append]
    cases rest with
    | nil => rfl
    | cons c r =>
      have hc := hrest c rfl
      unfold parseUnquoted
      rw [if_pos hc]
  | cons x f ih =>
    have hx := hf x (List.mem_cons_self x f)
    simp only [List.cons_append]
    unfold parseUnquoted
    rw [if_neg hx, ih (fun c hc => hf c (List.mem_cons_of_mem x hc))]

theorem parseQuotedBody_append {f tail : List Char}
    (ht : tail.head? ≠ some '"') :
    parseQuotedBody (escapeField f ++ '"' :: tail) = some (f, tail) := by
  induction f with
  | nil =>
    simp only [escapeField, List.nil_append]
    unfold parseQuotedBody
    rw [if_pos rfl, if_neg ht]
  | cons x f ih =>
    by_cases hx : x = '"'
    · subst hx
      simp only [escapeField, if_pos, List.cons_append]
      unfold parseQuotedBody
      rw [if_pos rfl, List.head?_cons, if_pos rfl, List.tail_cons, ih]
      rfl
    · simp only [escapeField, if_neg hx, List.cons_append]
      unfold parseQuotedBody
      rw [if_neg hx, ih]
      rfl

theorem needsQuote_false_chars {f : List Char} (h : needsQuote f = false) :
    ∀ c ∈ f, c ≠ ',' ∧ c ≠ '"' ∧ c ≠ '\n' ∧ c ≠ '\r' := by
  intro c hc
  unfold needsQuote at h
  rw [List.any_eq_false] at h
  have hcc := h c hc
  simp only [Bool.or_eq_true, decide_eq_true_eq, not_or] at hcc
  tauto

theorem parseField_encodeField {f rest : List Char}
    (hrest : ∀ c, rest.head? = some c → (c = ',' ∨ c = '\n')) :
    parseField (encodeField f ++ rest) = some (f, rest) := by
  unfold encodeField
  by_cases hq : needsQuote f
  · rw [if_pos hq]
    have hassoc : ('"' :: (escapeField f ++ ['"'])) ++ rest
        = '"' :: (escapeField f ++ '"' :: rest) := by simp
    rw [hassoc]
    unfold parseField
    rw [List.head?_cons, if_pos rfl, List.tail_cons]
    apply parseQuotedBody_append
    intro hr
    rcases hrest '"' hr with h | h <;> exact absurd h (by decide)
  · rw [if_neg hq]
    have hchars := needsQuote_false_chars (Bool.not_eq_true _ ▸ hq)
    have hf : ∀ c ∈ f, ¬(c = ',' ∨ c = '\n') := by
      intro c hc
      have hcc := hchars c hc
      rintro (h | h)
      · exact hcc.1 h
      · exact hcc.2.2.1 h
    cases f with
    | nil =>
      simp only [List.nil_append]
      cases rest with
      | nil => rfl
      | cons c r =>
        have hc := hrest c rfl
        unfold parseField
        rw [List.head?_cons, if_neg, show parseUnquoted (c :: r) = ([], c :: r) from by
          unfold parseUnquoted; rw [if_pos hc]]
        intro hcq
        have : c = '"' := Option.some.inj hcq
        rcases hc with h | h <;> rw [this] at h <;> exact absurd h (by decide)
    | cons x f' =>
      have hx : x ≠ '"' := ((hchars x (List.mem_cons_self x f')).2.1)
      simp only [List.cons_append]
      unfold parseField
      rw [List.head?_cons, if_neg (fun hcq => hx (Option.some.inj hcq))]
      rw [show x :: (f' ++ rest) = (x :: f') ++ rest from rfl]
      rw [parseUnquoted_append hf hrest]

theorem encodeLine_length (cells : List (List Char)) :
    cells.length ≤ (encodeLine cells).length + 1 := by
  induction cells with
  | nil => simp [encodeLine]
  | cons c cs ih =>
    cases cs with
    | nil => simp [encodeLine]
    | cons c2 cs' =>
      have henc : encodeLine (c :: c2 :: cs')
          = encodeField c ++ ',' :: encodeLine (c2 :: cs') := rfl
      rw [henc]
      simp only [List.length_cons, List.length_append] at *
      omega

theorem parseFields_encodeLine {cells : List (List Char)} :
    ∀ (fuel : Nat) (rest : List Char),
      cells ≠ [] → cells.length ≤ fuel →
      parseFields fuel (encodeLine cells ++ '\n' :: rest) = some (cells, rest) := by
  induction cells with
  | nil => intro fuel rest h _; exact absurd rfl h
  | cons c cs ih =>
    intro fuel rest _ hlen
    cases fuel with
    | zero => simp at hlen
    | succ k =>
      cases cs with
      | nil =>
        have henc : encodeLine [c] = encodeField c := rfl
        rw [henc]
        unfold parseFields
        rw [parseField_encodeField (fun a ha => Or.inr (by
          rw [List.head?_cons] at ha
          exact (Option.some.inj ha).symm))]
        simp only [Option.some_bind, List.head?_cons, List.tail_cons]
        simp
      | cons c2 cs' =>
        have henc : encodeLine (c :: c2 :: cs')
            = encodeField c ++ ',' :: encodeLine (c2 :: cs') := rfl
        rw [henc, List.append_assoc, List.cons_append]
        unfold parseFields
        rw [parseField_encodeField (fun a ha => Or.inl (by
          rw [List.head?_cons] at ha
          exact (Option.some.inj ha).symm))]
        simp only [Option.some_bind, List.head?_cons, List.tail_cons]
        rw [if_pos trivial,
          ih k rest (by simp) (by simp only [List.length_cons] at hlen ⊢; omega)]
        rfl

theorem encodeRecords_length (recs : List (List (List Char))) :
    recs.length ≤ (encodeRecords recs).length := by
  induction recs with
  | nil => simp [encodeRecords]
  | cons r rest ih =>
    simp only [encodeRecords, List.length_cons, List.length_append]
    omega

theorem parseRecords_encodeRecords {recs : List (List (List Char))} :
    ∀ fuel : Nat, (∀ r ∈ recs, r ≠ []) → recs.length < fuel →
      parseRecords fuel (encodeRecords recs) = some recs := by
  induction recs with
  | nil =>
    intro fuel _ hf
    cases fuel with
    | zero => omega
    | succ k => rfl
  | cons r rest ih =>
    intro fuel hne hf
    cases fuel with
    | zero => omega
    | succ k =>
      unfold parseRecords
      simp only [encodeRecords]
      have hl : (encodeLine r ++ '\n' :: encodeRecords rest).isEmpty = false := by
        cases henc : encodeLine r ++ '\n' :: encodeRecords rest with
        | nil => exact absurd henc (by simp)
        | cons a t => rfl
      rw [hl, if_neg (by decide)]
      rw [parseFields_encodeLine _ _ (hne r (List.mem_cons_self r rest))
        (by
          have h1 := encodeLine_length r
          simp only [List.length_append, List.length_cons]
          omega)]
      simp only [Option.some_bind]
      rw [ih k (fun x hx => hne x (List.mem_cons_of_mem r hx))
        (by simp only [List.length_cons] at hf ⊢; omega)]
      rfl

theorem stringMk_data (s : String) : String.mk s.data = s := by
  cases s
  rfl

theorem parseRow_rowCells {r : ResultRow}
    (hc : ∃ q, r.confidence = Json.num q)
    (he : ∃ e, r.detailed_emotion = Json.str e) :
    parseRow (rowCells r) = some r := by
  obtain ⟨q, hq⟩ := hc
  obtain ⟨e, hee⟩ := he
  rcases r with ⟨t, s, cf, de, n⟩
  simp only at hq hee
  subst hq
  subst hee
  simp only [rowCells, jsonCell, parseRow]
  rw [ratParse_ratRepr, natParse_natRepr]
  simp only [Option.some_bind, Option.map_some', stringMk_data]

theorem mapM_parseRow_map_rowCells {rs : List ResultRow}
    (h : ∀ r ∈ rs, (∃ q, r.confidence = Json.num q) ∧
      ∃ e, r.detailed_emotion = Json.str e) :
    (rs.map rowCells).mapM parseRow = some rs := by
  induction rs with
  | nil => rfl
  | cons r rest ih =>
    have hr := h r (List.mem_cons_self r rest)
    simp only [List.map_cons, List.mapM_cons, parseRow_rowCells hr.1 hr.2,
      ih (fun x hx => h x (List.mem_cons_of_mem r hx))]
    rfl

theorem except_bind_ok {ε α β : Type} (a : α) (f : α → Except ε β) :
    (Except.ok a : Except ε α).bind f = f a := rfl

theorem except_bind_error {ε α β : Type} (e : ε) (f : α → Except ε β) :
    (Except.error e : Except ε α).bind f = Except.error e := rfl

theorem except_map_ok {ε α β : Type} (a : α) (f : α → β) :
    (Except.ok a : Except ε α).map f = Except.ok (f a) := rfl

theorem except_map_error {ε α β : Type} (e : ε) (f : α → β) :
    (Except.error e : Except ε α).map f = Except.error e := rfl

/-- In a successful batch, the entry at the position of a given input row is
the result of processing exactly that row. -/
theorem runBatch_ok_nth {k : String} :
    ∀ (pre : List (String × ApiOutcome)) (t : String) (o : ApiOutcome)
      (post : List (String × ApiOutcome)) (rs : List ResultRow),
      runBatch k (pre ++ (t, o) :: post) = Except.ok rs →
      ∃ r, processRow k t o = Except.ok r ∧ rs.get? pre.length = some r := by
  intro pre
  induction pre with
  | nil =>
    intro t o post rs hb
    simp only [List.nil_append] at hb
    unfold runBatch at hb
    cases hp : processRow k t o with
    | error m =>
      rw [hp, except_bind_error] at hb
      cases hb
    | ok r =>
      rw [hp, except_bind_ok] at hb
      cases hrest : runBatch k post with
      | error m => rw [hrest, except_map_error] at hb; cases hb
      | ok rs' =>
        rw [hrest, except_map_ok] at hb
        cases hb
        exact ⟨r, rfl, rfl⟩
  | cons p pre ih =>
    intro t o post rs hb
    simp only [List.cons_append] at hb
    unfold runBatch at hb
    cases hp : processRow k p.1 p.2 with
    | error m =>
      rw [hp, except_bind_error] at hb
      cases hb
    | ok r =>
      rw [hp, except_bind_ok] at hb
      cases hrest : runBatch k (pre ++ (t, o) :: post) with
      | error m => rw [hrest, except_map_error] at hb; cases hb
      | ok rs' =>
        rw [hrest, except_map_ok] at hb
        cases hb
        obtain ⟨r', hr', hg⟩ := ih t o post rs' hrest
        exact ⟨r', hr', by simpa using hg⟩

/-! ## Helper lemmas about the classifier and batch guards -/

theorem query_sentiment_empty_key (o : ApiOutcome) :
    query_sentiment "" o = PyResult.failTriple := by
  unfold query_sentiment
  rw [if_pos rfl]

theorem processRow_empty_key (t : String) (o : ApiOutcome) :
    processRow "" t o = Except.ok (errorRowFor t) := by
  unfold processRow
  rw [query_sentiment_empty_key]

theorem runBatch_empty_key (rows : List (String × ApiOutcome)) :
    runBatch "" rows = Except.ok (rows.map (fun p => errorRowFor p.1)) := by
  induction rows with
  | nil => rfl
  | cons p rest ih =>
    obtain ⟨t, o⟩ := p
    unfold runBatch
    rw [processRow_empty_key, except_bind_ok, ih, except_map_ok]
    rfl

theorem label_map_get_of_not_mem {s : String}
    (h : s ∉ ["sadness", "joy", "love", "anger", "fear", "surprise"]) :
    label_map_get (Json.str s) = "Neutral" := by
  simp only [List.mem_cons, List.mem_singleton, not_or] at h
  obtain ⟨h1, h2, h3, h4, h5, h6, -⟩ := h
  have b1 : (s == "sadness") = false := beq_eq_false_iff_ne.mpr h1
  have b2 : (s == "joy") = false := beq_eq_false_iff_ne.mpr h2
  have b3 : (s == "love") = false := beq_eq_false_iff_ne.mpr h3
  have b4 : (s == "anger") = false := beq_eq_false_iff_ne.mpr h4
  have b5 : (s == "fear") = false := beq_eq_false_iff_ne.mpr h5
  have b6 : (s == "surprise") = false := beq_eq_false_iff_ne.mpr h6
  simp only [label_map_get, label_map, List.lookup_cons, b1, b2, b3, b4, b5, b6]
  rfl

/-! ## Claim theorems -/

/-- A prediction entry `{"label": l, "score": q}` as the API serialises it. -/
def predJson (e : String × ℚ) : Json :=
  Json.obj [("label", Json.str e.1), ("score", Json.num e.2)]

/-- C1, counterexample: for the successful response
`[[{"label": "A", "score": 1}, {"label": "B", "score": 2}]]` the
highest-scoring entry is `("B", 2)`, but `query_sentiment` takes
`result[0][0]` — the first-listed entry — and returns raw label `"A"` with
score `1`.  The returned score `1` differs from the maximal score `2`, so the
claimed "highest-scoring pair regardless of list order" is false. -/
theorem C1_counterexample :
    query_sentiment "key" (ApiOutcome.response 200 (some (Json.arr [Json.arr
      [Json.obj [("label", Json.str "A"), ("score", Json.num 1)],
       Json.obj [("label", Json.str "B"), ("score", Json.num 2)]]])))
      = PyResult.ok "Neutral" (Json.num 1) (Json.str "A") ∧ (1 : ℚ) < 2 := by
  constructor
  · rfl
  · norm_num

/-- C1, amended: on a successful nested-list response the Classifier Client
returns the first-listed entry of the first prediction group (its raw label,
its score, and the normalised label); when the group is sorted by score
descending — as the external API contract provides — that first entry carries
a maximal score, and tied scores yield the first-listed entry. -/
theorem C1_first_entry_top_when_sorted
    (k : String) (hk : k ≠ "") (status : Nat) (hs : status < 400)
    (e0 : String × ℚ) (es : List (String × ℚ)) (gs : List Json) :
    query_sentiment k (ApiOutcome.response status
        (some (Json.arr (Json.arr ((e0 :: es).map predJson) :: gs))))
      = PyResult.ok (label_map_get (Json.str e0.1)) (Json.num e0.2)
          (Json.str e0.1) ∧
    (List.Pairwise (fun a b => b.2 ≤ a.2) (e0 :: es) →
      ∀ e ∈ e0 :: es, e.2 ≤ e0.2) := by
  constructor
  · unfold query_sentiment
    rw [if_neg hk]
    simp only []
    rw [if_neg (by omega : ¬status = 401), if_neg (by omega : ¬status = 403),
      if_neg (by omega : ¬(400 ≤ status ∧ status < 600))]
    simp only [List.map_cons, predJson]
    rfl
  · intro hsort e he
    rcases List.mem_cons.mp he with rfl | he'
    · exact le_refl _
    · exact (List.pairwise_cons.mp hsort).1 e he'

/-- Witness for C1 at the spec's example response
`[[{"label": "LABEL_2", "score": 0.95}, {"label": "LABEL_0", "score": 0.05}]]`:
the client returns `("LABEL_2", 0.95)` (raw label and score; `LABEL_2` is not
an emotion key, so the normalised label is `Neutral`), and `0.95` is maximal
in the sorted group. -/
theorem C1_first_entry_top_when_sorted_witness :
    ("key" : String) ≠ "" ∧ (200 : Nat) < 400 ∧
    query_sentiment "key" (ApiOutcome.response 200
        (some (Json.arr (Json.arr ([("LABEL_2", (19 : ℚ)/20),
          ("LABEL_0", (1 : ℚ)/20)].map predJson) :: []))))
      = PyResult.ok "Neutral" (Json.num ((19 : ℚ)/20)) (Json.str "LABEL_2") ∧
    ∀ e ∈ [("LABEL_2", (19 : ℚ)/20), ("LABEL_0", (1 : ℚ)/20)],
      e.2 ≤ (19 : ℚ)/20 := by
  refine ⟨by decide, by norm_num, ?_, ?_⟩
  · have h := (C1_first_entry_top_when_sorted "key" (by decide) 200 (by norm_num)
      ("LABEL_2", (19 : ℚ)/20) [("LABEL_0", (1 : ℚ)/20)] []).1
    rw [show label_map_get (Json.str "LABEL_2") = "Neutral" from rfl] at h
    exact h
  · exact (C1_first_entry_top_when_sorted "key" (by decide) 200 (by norm_num)
      ("LABEL_2", (19 : ℚ)/20) [("LABEL_0", (1 : ℚ)/20)] []).2
      (by
        refine List.Pairwise.cons ?_ (List.pairwise_singleton _ _)
        intro b hb
        rw [List.mem_singleton.mp hb]
        norm_num)

/-- C2 (code bug): a non-empty batch — one row `"hi"` — whose API response is
HTTP 200 with the JSON body `[]` (a list, so `isinstance(result, list)`
passes, but not the expected nested list) aborts with an uncaught
`IndexError` from `result[0]`: the run produces no ResultSet at all, instead
of the claimed full-length ResultSet with one entry per row. -/
theorem C2_batch_aborts_on_malformed_body :
    analyzeBatchClick "key" [("hi", ApiOutcome.response 200 (some (Json.arr [])))]
      = BatchClickResult.pythonCrash "IndexError" := rfl

/-- C3 (code bug): when the first row's classifier call hits the malformed
body `[]` — per the spec taxonomy a `MalformedResponse` ClassifierError — the
uncaught `IndexError` aborts the whole batch: no Error entry is recorded for
the failing row and the second row (a transport failure that would have been
handled) is never processed, contradicting "a single row failure never aborts
the batch". -/
theorem C3_row_failure_aborts_batch :
    analyzeBatchClick "key"
      [("hi", ApiOutcome.response 200 (some (Json.arr []))),
       ("bye", ApiOutcome.transportFailure)]
      = BatchClickResult.pythonCrash "IndexError" := rfl

/-- C4 (code bug): a 200 response whose body is the JSON list `[]` is not the
expected nested list of label/score objects, yet it passes the
`isinstance(result, list)` check and `result[0]` raises an uncaught
`IndexError` — not the claimed handled `MalformedResponse` failure.  (The
401, 403, other-4xx/5xx and transport cases are all handled and return the
`None` triple, as the other theorems in this file use.) -/
theorem C4_malformed_list_body_uncaught :
    query_sentiment "key" (ApiOutcome.response 200 (some (Json.arr [])))
      = PyResult.exn "IndexError" := rfl

/-- C5: the label normaliser is a pure lookup in the static map with default
`Neutral`: `joy ↦ Positive`, `sadness ↦ Negative`, and every raw label that
is not a key of the map yields `Neutral`. -/
theorem C5_normalize_pure_with_fallback :
    label_map_get (Json.str "joy") = "Positive" ∧
    label_map_get (Json.str "sadness") = "Negative" ∧
    ∀ s : String, s ∉ label_map.map Prod.fst →
      label_map_get (Json.str s) = "Neutral" := by
  refine ⟨rfl, rfl, ?_⟩
  intro s hs
  apply label_map_get_of_not_mem
  simpa [label_map] using hs

/-- Witness for C5 at the unknown raw label `"unknown_xyz"`. -/
theorem C5_normalize_pure_with_fallback_witness :
    "unknown_xyz" ∉ label_map.map Prod.fst ∧
    label_map_get (Json.str "unknown_xyz") = "Neutral" :=
  ⟨by decide, C5_normalize_pure_with_fallback.2.2 "unknown_xyz" (by decide)⟩

/-- C6, counterexample: with an empty credential and one input row, pressing
the analyze button reports the missing-token error and produces no results
table at all — so no ResultSet with "an AuthError for every row" is
returned. -/
theorem C6_counterexample :
    (analyzeBatchClick "" [("hello", ApiOutcome.transportFailure)]).isResults
      = false := rfl

/-- C6, amended: with an empty credential the batch button reports the
missing key and processes no rows (the outcome does not depend on the rows
or the network, so no network call is made); the classifier's own guard
likewise returns the failure triple before any network access, for every
possible network outcome; and had the per-row loop been reached, every row
would have been recorded as an Error entry with confidence 0. -/
theorem C6_empty_credential_guard (rows : List (String × ApiOutcome)) :
    analyzeBatchClick "" rows = BatchClickResult.missingKeyMessage ∧
    (∀ o : ApiOutcome, query_sentiment "" o = PyResult.failTriple) ∧
    runBatch "" rows = Except.ok (rows.map (fun p => errorRowFor p.1)) :=
  ⟨rfl, query_sentiment_empty_key, runBatch_empty_key rows⟩

/-- C7: serialising a results table with `to_csv` (header line, minimal
quoting) and re-parsing the delimited text reproduces the rows — in
particular the `(text, sentiment, confidence)` triples — exactly and in
order.  The hypotheses state that the table is well formed (numeric
confidences, string detailed emotions), which holds of every row the batch
loop ever appends. -/
theorem C7_csv_round_trip (rs : List ResultRow)
    (h : ∀ r ∈ rs, (∃ q, r.confidence = Json.num q) ∧
      ∃ e, r.detailed_emotion = Json.str e) :
    readCSV (writeCSV rs) = some rs := by
  unfold readCSV writeCSV
  have hdata : (String.mk (encodeRecords (csvHeader :: rs.map rowCells))).data
      = encodeRecords (csvHeader :: rs.map rowCells) := rfl
  rw [hdata]
  rw [parseRecords_encodeRecords _
    (by
      intro r hr
      rcases List.mem_cons.mp hr with rfl | hr'
      · simp [csvHeader]
      · obtain ⟨x, hx, rfl⟩ := List.mem_map.mp hr'
        simp [rowCells])
    (by
      have hlen := encodeRecords_length (csvHeader :: rs.map rowCells)
      simp only [List.length_cons] at hlen ⊢
      omega)]
  simp only [Option.some_bind, List.head?_cons, List.tail_cons]
  rw [if_pos trivial]
  exact mapM_parseRow_map_rowCells h

/-- Witness for C7 at a concrete two-row table whose first text contains a
comma, a quote and a line break (so quoting is exercised). -/
theorem C7_csv_round_trip_witness :
    (∀ r ∈ ([⟨"I love it, \"really\"\nfive stars", "Positive",
        Json.num ((19 : ℚ)/20), Json.str "joy", 30⟩,
      ⟨"meh", "Error", Json.num 0, Json.str "error", 3⟩] : List ResultRow),
      (∃ q, r.confidence = Json.num q) ∧
        ∃ e, r.detailed_emotion = Json.str e) ∧
    readCSV (writeCSV [⟨"I love it, \"really\"\nfive stars", "Positive",
        Json.num ((19 : ℚ)/20), Json.str "joy", 30⟩,
      ⟨"meh", "Error", Json.num 0, Json.str "error", 3⟩])
      = some [⟨"I love it, \"really\"\nfive stars", "Positive",
          Json.num ((19 : ℚ)/20), Json.str "joy", 30⟩,
        ⟨"meh", "Error", Json.num 0, Json.str "error", 3⟩] := by
  have hh : ∀ r ∈ ([⟨"I love it, \"really\"\nfive stars", "Positive",
      Json.num ((19 : ℚ)/20), Json.str "joy", 30⟩,
    ⟨"meh", "Error", Json.num 0, Json.str "error", 3⟩] : List ResultRow),
      (∃ q, r.confidence = Json.num q) ∧
        ∃ e, r.detailed_emotion = Json.str e := by
    intro r hr
    rcases List.mem_cons.mp hr with rfl | hr'
    · exact ⟨⟨(19 : ℚ)/20, rfl⟩, "joy", rfl⟩
    · rw [List.mem_singleton.mp hr']
      exact ⟨⟨0, rfl⟩, "error", rfl⟩
  exact ⟨hh, C7_csv_round_trip _ hh⟩

/-- C8: the text column is the first column (in column order) whose name,
lowered, is one of text/comment/review/content/message; and when no column
matches, the batch tab reports the hard error before anything is analysed
(the outcome does not depend on the key or the network oracle). -/
theorem C8_text_column_detection :
    (∀ (cols : List String) (c : String),
      findTextColumn cols = some c ↔
        matchesTextName c = true ∧
        ∃ pre post, cols = pre ++ c :: post ∧
          ∀ x ∈ pre, matchesTextName x = false) ∧
    (∀ c : String, matchesTextName c = true ↔
      pyLower c ∈ ["text", "comment", "review", "content", "message"]) ∧
    (∀ (k : String) (df : List (String × List String))
      (oracle : String → ApiOutcome),
      findTextColumn (df.map Prod.fst) = none →
        tab2Run k df oracle = Tab2Result.missingColumnMessage) := by
  refine ⟨?_, ?_, ?_⟩
  · intro cols c
    unfold findTextColumn
    rw [List.find?_eq_some]
    constructor
    · rintro ⟨hc, pre, post, heq, hpre⟩
      exact ⟨hc, pre, post, heq, fun x hx => by simpa using hpre x hx⟩
    · rintro ⟨hc, pre, post, heq, hpre⟩
      exact ⟨hc, pre, post, heq, fun x hx => by simp [hpre x hx]⟩
  · intro c
    have hmap : possible_names.map pyLower
        = ["text", "text", "text", "comment", "comment", "review", "review",
           "content", "content", "message", "message"] := rfl
    unfold matchesTextName
    rw [hmap]
    simp only [List.contains_eq_any_beq, List.any_eq_true, beq_iff_eq,
      List.mem_cons, List.mem_singleton]
    constructor
    · rintro ⟨x, hx, rfl⟩
      tauto
    · intro h
      exact ⟨pyLower c, by tauto, rfl⟩
  · intro k df oracle h
    unfold tab2Run
    rw [h]

/-- Witness for C8: on columns `["id", "Review", "text"]` the first matching
column `"Review"` is chosen (case-insensitively, ahead of `"text"`), and a
table with no matching column yields the hard error. -/
theorem C8_text_column_detection_witness :
    findTextColumn ["id", "Review", "text"] = some "Review" ∧
    tab2Run "key" [("id", ["1"]), ("score", ["2"])]
      (fun _ => ApiOutcome.transportFailure)
      = Tab2Result.missingColumnMessage := by
  constructor
  · exact (C8_text_column_detection.1 ["id", "Review", "text"] "Review").mpr
      ⟨by decide, ["id"], ["text"], rfl, by decide⟩
  · exact C8_text_column_detection.2.2 "key" [("id", ["1"]), ("score", ["2"])]
      (fun _ => ApiOutcome.transportFailure) (by decide)

/-- C9: a row whose classifier call succeeds but carries score 0 fails the
truthiness test `if label and score:` (Python's `0` is falsy), so the batch
records it as `("Error", 0)`, indistinguishable from a failed call: in any
successful batch containing such a row, the entry at that row's position is
exactly the error entry. -/
theorem C9_zero_score_recorded_as_error
    (k t : String) (o : ApiOutcome) (lbl : String) (emo : Json)
    (pre post : List (String × ApiOutcome)) (rs : List ResultRow)
    (hq : query_sentiment k o = PyResult.ok lbl (Json.num 0) emo)
    (hb : runBatch k (pre ++ (t, o) :: post) = Except.ok rs) :
    rs.get? pre.length = some (errorRowFor t) := by
  obtain ⟨r, hr, hg⟩ := runBatch_ok_nth pre t o post rs hb
  have hpr : processRow k t o = Except.ok (errorRowFor t) := by
    unfold processRow
    rw [hq]
    simp only []
    rw [if_neg]
    intro hcon
    have hsc := hcon.2
    simp [pyTruthy] at hsc
  rw [hpr] at hr
  cases hr
  exact hg

/-- Witness for C9: the response `[[{"label": "joy", "score": 0}]]` succeeds
with label `Positive` and score 0, yet the one-row batch records the error
entry. -/
theorem C9_zero_score_recorded_as_error_witness :
    query_sentiment "key" (ApiOutcome.response 200 (some (Json.arr [Json.arr
        [Json.obj [("label", Json.str "joy"), ("score", Json.num 0)]]])))
      = PyResult.ok "Positive" (Json.num 0) (Json.str "joy") ∧
    runBatch "key" [("hi", ApiOutcome.response 200 (some (Json.arr [Json.arr
        [Json.obj [("label", Json.str "joy"), ("score", Json.num 0)]]])))]
      = Except.ok [errorRowFor "hi"] ∧
    [errorRowFor "hi"].get? 0 = some (errorRowFor "hi") := by
  refine ⟨rfl, rfl, ?_⟩
  exact C9_zero_score_recorded_as_error "key" "hi"
    (ApiOutcome.response 200 (some (Json.arr [Json.arr
      [Json.obj [("label", Json.str "joy"), ("score", Json.num 0)]]])))
    "Positive" (Json.str "joy") [] [] [errorRowFor "hi"] rfl rfl

/-- C10: the emotion label map is a fixed literal with exactly the six keys
sadness, joy, love, anger, fear, surprise; sadness/anger/fear normalise to
Negative, joy/love/surprise to Positive, and every other raw label falls
through to Neutral.  (In the source the dict literal is rebuilt on every call
and never mutated; here it is the constant `label_map`.) -/
theorem C10_label_map_fixed_and_total :
    label_map.map Prod.fst
      = ["sadness", "joy", "love", "anger", "fear", "surprise"] ∧
    label_map_get (Json.str "sadness") = "Negative" ∧
    label_map_get (Json.str "anger") = "Negative" ∧
    label_map_get (Json.str "fear") = "Negative" ∧
    label_map_get (Json.str "joy") = "Positive" ∧
    label_map_get (Json.str "love") = "Positive" ∧
    label_map_get (Json.str "surprise") = "Positive" ∧
    ∀ s : String, s ∉ ["sadness", "joy", "love", "anger", "fear", "surprise"] →
      label_map_get (Json.str s) = "Neutral" :=
  ⟨rfl, rfl, rfl, rfl, rfl, rfl, rfl, fun _ h => label_map_get_of_not_mem h⟩

/-- Witness for C10 at the out-of-map raw label `"LABEL_2"`. -/
theorem C10_label_map_fixed_and_total_witness :
    "LABEL_2" ∉ ["sadness", "joy", "love", "anger", "fear", "surprise"] ∧
    label_map_get (Json.str "LABEL_2") = "Neutral" :=
  ⟨by decide,
    C10_label_map_fixed_and_total.2.2.2.2.2.2.2 "LABEL_2" (by decide)⟩
